import Mathlib

/-!
Verification development for the SentiSounds recommendation-and-export
pipeline.  The definitions below are shallow embeddings of the repository's
code: the frontend scripts (`frontend/src/scripts/index.js` and the related
page scripts) are translated directly; backend components that the
repository ships only as built artifacts (TrackAggregator, GenreDeriver,
InteractionStore, PlaylistExporter, TokenManager) are modelled from the
specification, and each such definition says so in its doc comment.
-/

namespace SentiSounds

/-- Track summary as the frontend receives it from `recommend-songs`:
`id` is the catalog identifier (the dedup key), `albumImages` is the list
of album image URLs (`song.album.images[i].url`), `previewUrl` is
`song.preview_url` (absent or possibly empty), `youtubeUrl` is
`song.external_urls.youtube`. -/
structure Track where
  id : String
  name : String
  artists : List String
  popularity : Nat
  previewUrl : Option String
  albumImages : List String
  youtubeUrl : Option String
  deriving Repr, DecidableEq

/-- Modelled from the spec: the backend TrackAggregator (not under `src/`)
deduplicates the flattened per-genre lists by `id`, keeping the first
occurrence encountered; `seen` is the accumulator of ids already kept. -/
def dedupById : List Track → List String → List Track
  | [], _ => []
  | t :: ts, seen =>
    if t.id ∈ seen then dedupById ts seen
    else t :: dedupById ts (t.id :: seen)

/-- Modelled from the spec: the backend TrackAggregator (not under `src/`)
flattens all per-genre lists in genre order and deduplicates by `id`. -/
def aggregate (genreResults : List (List Track)) : List Track :=
  dedupById genreResults.flatten []

theorem dedupById_mem_not_seen (l : List Track) (seen : List String) (t : Track)
    (h : t ∈ dedupById l seen) : t.id ∉ seen := by
  induction l generalizing seen with
  | nil => simp [dedupById] at h
  | cons x ts ih =>
    simp only [dedupById] at h
    by_cases hx : x.id ∈ seen
    · rw [if_pos hx] at h
      exact ih seen h
    · rw [if_neg hx] at h
      rcases List.mem_cons.mp h with rfl | h
      · exact hx
      · intro hs
        exact ih (x.id :: seen) h (List.mem_cons_of_mem _ hs)

theorem dedupById_id_nodup (l : List Track) (seen : List String) :
    ((dedupById l seen).map Track.id).Nodup := by
  induction l generalizing seen with
  | nil => simp [dedupById]
  | cons x ts ih =>
    simp only [dedupById]
    by_cases hx : x.id ∈ seen
    · rw [if_pos hx]; exact ih seen
    · rw [if_neg hx]
      simp only [List.map_cons, List.nodup_cons]
      refine ⟨?_, ih _⟩
      intro hmem
      obtain ⟨u, hu, hid⟩ := List.mem_map.mp hmem
      have hns := dedupById_mem_not_seen ts (x.id :: seen) u hu
      apply hns
      rw [hid]
      exact List.mem_cons_self _ _

theorem dedupById_sublist (l : List Track) (seen : List String) :
    (dedupById l seen).Sublist l := by
  induction l generalizing seen with
  | nil => simp [dedupById]
  | cons x ts ih =>
    simp only [dedupById]
    by_cases hx : x.id ∈ seen
    · rw [if_pos hx]; exact (ih seen).cons x
    · rw [if_neg hx]; exact (ih _).cons₂ x

theorem dedupById_first_occurrence (l : List Track) (seen : List String) (t : Track)
    (h : t ∈ dedupById l seen) : l.find? (fun u => u.id == t.id) = some t := by
  induction l generalizing seen with
  | nil => simp [dedupById] at h
  | cons x ts ih =>
    simp only [dedupById] at h
    by_cases hx : x.id ∈ seen
    · rw [if_pos hx] at h
      have hts := dedupById_mem_not_seen ts seen t h
      have hne : (x.id == t.id) = false := by
        rw [beq_eq_false_iff_ne]
        intro he
        exact hts (he ▸ hx)
      rw [List.find?_cons, hne]
      exact ih seen h
    · rw [if_neg hx] at h
      rcases List.mem_cons.mp h with rfl | h
      · simp [List.find?_cons]
      · have hts := dedupById_mem_not_seen ts (x.id :: seen) t h
        have hne : (x.id == t.id) = false := by
          rw [beq_eq_false_iff_ne]
          intro he
          exact hts (by rw [← he]; exact List.mem_cons_self _ _)
        rw [List.find?_cons, hne]
        exact ih (x.id :: seen) h

/-- C1: the aggregated track list contains no two tracks with the same id;
it is obtained from the flattened per-genre lists (genre order first, then
within-genre order) by deleting later duplicates, so the output order is the
dedup-preserving encounter order; and each surviving track is the first
occurrence of its id in that encounter order.  Determinism is immediate
because `aggregate` is a pure function of its input. -/
theorem aggregate_dedup_spec (genreResults : List (List Track)) (t : Track)
    (ht : t ∈ aggregate genreResults) :
    ((aggregate genreResults).map Track.id).Nodup ∧
    (aggregate genreResults).Sublist genreResults.flatten ∧
    genreResults.flatten.find? (fun u => u.id == t.id) = some t :=
  ⟨dedupById_id_nodup _ _, dedupById_sublist _ _,
    dedupById_first_occurrence _ _ _ ht⟩

def trackA : Track :=
  { id := "a1", name := "Song A", artists := ["X"], popularity := 50,
    previewUrl := some "pa", albumImages := ["ia"], youtubeUrl := none }

def trackB : Track :=
  { id := "b2", name := "Song B", artists := ["Y"], popularity := 30,
    previewUrl := none, albumImages := [], youtubeUrl := some "yb" }

def trackC : Track :=
  { id := "c3", name := "Song C", artists := ["Z"], popularity := 70,
    previewUrl := some "", albumImages := ["ic", "ic2"], youtubeUrl := none }

/-- Witness for C1 at a concrete input in which `trackA` appears in two
genre lists. -/
theorem aggregate_dedup_spec_witness :
    trackA ∈ aggregate [[trackA, trackB], [trackA, trackC]] ∧
    (((aggregate [[trackA, trackB], [trackA, trackC]]).map Track.id).Nodup ∧
      (aggregate [[trackA, trackB], [trackA, trackC]]).Sublist
        [[trackA, trackB], [trackA, trackC]].flatten ∧
      [[trackA, trackB], [trackA, trackC]].flatten.find?
        (fun u => u.id == trackA.id) = some trackA) :=
  ⟨by decide, aggregate_dedup_spec [[trackA, trackB], [trackA, trackC]] trackA (by decide)⟩

/-- JavaScript truthiness of an optional string field (`if (song.preview_url)`
in `frontend/src/scripts/index.js`): `null`/absent and the empty string are
falsy, every other string is truthy. -/
def jsTruthy : Option String → Bool
  | none => false
  | some s => !s.isEmpty

/-- Album cover URL computed by the search-results renderer,
`frontend/src/scripts/index.js` lines 105-108:
`song.album.images.length > 0 ? song.album.images[0].url : placeholder`. -/
def albumCoverUrl (song : Track) : String :=
  if 0 < song.albumImages.length then song.albumImages.headI
  else "https://placehold.co/200x200"

/-- Preview clip URL attached to the rendered card,
`frontend/src/scripts/index.js` lines 113-125: the audio element (with
`src` set to `song.preview_url`) is emitted only when `song.preview_url`
is truthy. -/
def attachedPreviewUrl (song : Track) : Option String :=
  if jsTruthy song.previewUrl then song.previewUrl else none

/-- C8: the displayed album cover URL is the track's first album image URL
when the image list is non-empty and the fixed placeholder when it is empty
(stated for an arbitrary track `other` as a single equation through
`List.head?`), and the preview clip URL is attached whenever it is present
(a non-empty string). -/
theorem albumCover_preview_spec (song other : Track) (u : String)
    (hu : song.previewUrl = some u) (hne : u ≠ "") :
    albumCoverUrl other = other.albumImages.head?.getD "https://placehold.co/200x200" ∧
    attachedPreviewUrl song = some u := by
  constructor
  · unfold albumCoverUrl
    cases other.albumImages with
    | nil => rfl
    | cons v vs => simp [List.headI]
  · unfold attachedPreviewUrl jsTruthy
    rw [hu]
    have : u.isEmpty = false := by
      rw [Bool.eq_false_iff]
      intro h
      exact hne ((String.isEmpty_iff u).mp h)
    simp [this]

/-- Witness for C8: `trackA` carries the preview clip "pa", and `trackB`
(no album images) falls back to the placeholder. -/
theorem albumCover_preview_spec_witness :
    trackA.previewUrl = some "pa" ∧ "pa" ≠ "" ∧
    (albumCoverUrl trackB = trackB.albumImages.head?.getD "https://placehold.co/200x200" ∧
      attachedPreviewUrl trackA = some "pa") :=
  ⟨rfl, by decide, albumCover_preview_spec trackA trackB "pa" rfl (by decide)⟩

/-- JavaScript remainder `t % 60` for a non-negative number `t`, modelled on
the rationals: the remainder takes the dividend's sign, so for `t ≥ 0` it
equals `t - 60 * floor (t / 60)`. -/
def jsMod60 (t : ℚ) : ℚ := t - 60 * (⌊t / 60⌋ : ℤ)

/-- Seconds rendering of `formatTime`: a leading zero is prepended exactly
when the seconds value is below 10. -/
def padSeconds (s : ℤ) : String :=
  if s < 10 then "0" ++ toString s else toString s

/-- formatTime from `frontend/src/scripts/index.js` lines 286-290:
minutes are `Math.floor(t / 60)`, seconds are `Math.floor(t % 60)` with a
leading zero below 10, joined by a colon. -/
def formatTime (t : ℚ) : String :=
  toString ⌊t / 60⌋ ++ ":" ++ padSeconds ⌊jsMod60 t⌋

theorem padSeconds_length (s : ℤ) (h0 : 0 ≤ s) (h60 : s < 60) :
    (padSeconds s).length = 2 := by
  interval_cases s <;> rfl

/-- C10: for every non-negative rational number of seconds `t`, `formatTime`
returns `floor (t / 60)`, a colon, and the zero-padded `floor (t mod 60)`;
the seconds value is non-negative and strictly below 60, and the rendered
seconds field has exactly two characters. -/
theorem formatTime_spec (t : ℚ) (ht : 0 ≤ t) :
    0 ≤ ⌊jsMod60 t⌋ ∧ ⌊jsMod60 t⌋ < 60 ∧
    (padSeconds ⌊jsMod60 t⌋).length = 2 ∧
    formatTime t = toString ⌊t / 60⌋ ++ ":" ++ padSeconds ⌊jsMod60 t⌋ := by
  have hfr : jsMod60 t = 60 * Int.fract (t / 60) := by
    unfold jsMod60 Int.fract
    ring
  have h0 : 0 ≤ jsMod60 t := by
    rw [hfr]
    exact mul_nonneg (by norm_num) (Int.fract_nonneg _)
  have h60 : jsMod60 t < 60 := by
    rw [hfr]
    have hlt := Int.fract_lt_one (t / 60)
    linarith
  have hf0 : 0 ≤ ⌊jsMod60 t⌋ := Int.floor_nonneg.mpr h0
  have hf60 : ⌊jsMod60 t⌋ < 60 := Int.floor_lt.mpr (by exact_mod_cast h60)
  exact ⟨hf0, hf60, padSeconds_length _ hf0 hf60, rfl⟩

/-- Witness for C10 at `t = 125` seconds. -/
theorem formatTime_spec_witness :
    0 ≤ (125 : ℚ) ∧
    (0 ≤ ⌊jsMod60 125⌋ ∧ ⌊jsMod60 125⌋ < 60 ∧
      (padSeconds ⌊jsMod60 125⌋).length = 2 ∧
      formatTime 125 = toString ⌊(125 : ℚ) / 60⌋ ++ ":" ++ padSeconds ⌊jsMod60 125⌋) :=
  ⟨by norm_num, formatTime_spec 125 (by norm_num)⟩

/-- Transient search-form state in `frontend/src/scripts/index.js`:
`pastPrompt` is initialized to the empty string (line 5) and
`popularityControl` to 0 (line 6). -/
structure SearchState where
  pastPrompt : String
  popularityControl : Nat
  deriving Repr, DecidableEq

def initialSearchState : SearchState := { pastPrompt := "", popularityControl := 0 }

/-- getPopularityScore from `frontend/src/scripts/index.js` lines 362-374:
on an identical prompt it first increments `popularityControl` by 5, then
returns 5 when the incremented control reached 20, else `20 - control`;
on a different prompt it resets the control to 0 and returns 20. -/
def getPopularityScore (st : SearchState) (enteredPrompt : String) : Nat × SearchState :=
  if enteredPrompt = st.pastPrompt then
    if 20 ≤ st.popularityControl + 5 then
      (5, { st with popularityControl := st.popularityControl + 5 })
    else
      (20 - (st.popularityControl + 5), { st with popularityControl := st.popularityControl + 5 })
  else
    (20, { st with popularityControl := 0 })

/-- Search-form submit handler (`frontend/src/scripts/index.js` lines 44-67):
computes the popularity score for the entered prompt and then records
`pastPrompt = enteredPrompt`. -/
def submitSearch (st : SearchState) (p : String) : Nat × SearchState :=
  ((getPopularityScore st p).1, { (getPopularityScore st p).2 with pastPrompt := p })

/-- Trace of popularity scores sent with `recommend-songs` over a sequence
of search-form submissions. -/
def scoresFrom (st : SearchState) : List String → List Nat
  | [] => []
  | p :: ps => (submitSearch st p).1 :: scoresFrom (submitSearch st p).2 ps

/-- Reference trace following the claim's words: 20 when the prompt differs
from the previous one, otherwise 5 lower than the previous score with floor
5 (fixed point). -/
def specScores (past : String) (prev : Nat) : List String → List Nat
  | [] => []
  | p :: ps =>
    (if p = past then max (prev - 5) 5 else 20) ::
      specScores p (if p = past then max (prev - 5) 5 else 20) ps

def allowedScore (s : Nat) : Bool := s == 5 || s == 10 || s == 15 || s == 20

theorem scoresFrom_eq_specScores (ps : List String) (st : SearchState)
    (hInv : st.popularityControl % 5 = 0) :
    scoresFrom st ps = specScores st.pastPrompt (max (20 - st.popularityControl) 5) ps := by
  induction ps generalizing st with
  | nil => rfl
  | cons p ps ih =>
    simp only [scoresFrom, specScores, submitSearch, getPopularityScore]
    by_cases hp : p = st.pastPrompt
    · rw [if_pos hp, if_pos hp]
      by_cases h20 : 20 ≤ st.popularityControl + 5
      · rw [if_pos h20]
        have hhead : 5 = max (max (20 - st.popularityControl) 5 - 5) 5 := by omega
        have hih := ih { pastPrompt := p, popularityControl := st.popularityControl + 5 }
          (by show (st.popularityControl + 5) % 5 = 0; omega)
        simp only at hih
        rw [← hhead, hih]
        have htail : max (20 - (st.popularityControl + 5)) 5 = 5 := by omega
        rw [htail]
      · rw [if_neg h20]
        have hhead : 20 - (st.popularityControl + 5) =
            max (max (20 - st.popularityControl) 5 - 5) 5 := by omega
        have hih := ih { pastPrompt := p, popularityControl := st.popularityControl + 5 }
          (by show (st.popularityControl + 5) % 5 = 0; omega)
        simp only at hih
        rw [← hhead, hih]
        have htail : max (20 - (st.popularityControl + 5)) 5 =
            20 - (st.popularityControl + 5) := by omega
        rw [htail]
    · rw [if_neg hp, if_neg hp]
      have hih := ih { pastPrompt := p, popularityControl := 0 } (by show (0 : Nat) % 5 = 0; rfl)
      simp only at hih
      rw [hih]
      have h20 : max (20 - 0) 5 = 20 := by omega
      rw [h20]

theorem specScores_allowed (ps : List String) (past : String) (prev : Nat)
    (h : allowedScore prev = true) :
    (specScores past prev ps).all allowedScore = true := by
  induction ps generalizing past prev with
  | nil => rfl
  | cons p ps ih =>
    simp only [specScores, List.all_cons, Bool.and_eq_true]
    have hhead : allowedScore (if p = past then max (prev - 5) 5 else 20) = true := by
      simp only [allowedScore, Bool.or_eq_true, beq_iff_eq] at h ⊢
      rcases h with ((h | h) | h) | h <;> subst h <;> by_cases hp : p = past <;>
        simp [hp]
    exact ⟨hhead, ih _ _ hhead⟩

/-- C9: over every sequence of search-form submissions starting from the
initial page state, the trace of popularity scores sent with
`recommend-songs` equals the reference trace (20 on a changed prompt,
otherwise 5 lower than the previous score with floor 5), and every score
in the trace is one of 5, 10, 15, 20. -/
theorem popularity_score_spec (ps : List String) :
    scoresFrom initialSearchState ps = specScores "" 20 ps ∧
    (scoresFrom initialSearchState ps).all allowedScore = true := by
  have h0 := scoresFrom_eq_specScores ps initialSearchState (by rfl)
  have hmax : max (20 - initialSearchState.popularityControl) 5 = 20 := by decide
  rw [hmax] at h0
  have h : scoresFrom initialSearchState ps = specScores "" 20 ps := h0
  refine ⟨h, ?_⟩
  rw [h]
  exact specScores_allowed ps "" 20 (by decide)

/-- Sanity check of the popularity trace on a concrete submission sequence:
five identical prompts then a changed prompt resubmitted once. -/
theorem popularity_trace_example :
    scoresFrom initialSearchState ["a", "a", "a", "a", "a", "b", "b"] =
      [20, 15, 10, 5, 5, 20, 15] := by decide

/-- Export set (`exportMap` in `frontend/src/scripts/index.js`) modelled by
its key list in insertion order, matching JavaScript object string-key
order.  `augmentPlaylist` (lines 292-314) stores under the song id, which
adds a new last key when absent and leaves the key order unchanged when the
key already exists. -/
def augmentKeys (ids : List String) (songId : String) : List String :=
  if songId ∈ ids then ids else ids ++ [songId]

/-- deaugmentPlaylist (`frontend/src/scripts/index.js` lines 316-325):
`delete exportMap[songId]` removes the key. -/
def deaugmentKeys (ids : List String) (songId : String) : List String :=
  ids.filter (fun j => j != songId)

/-- getSongIdsAsString (`frontend/src/scripts/index.js` lines 410-418):
`Object.keys(exportMap).join(" ")`. -/
def getSongIdsAsString (ids : List String) : String :=
  String.intercalate " " ids

/-- Parameters of the export-playlist request as built by the export click
handler (`frontend/src/scripts/index.js` lines 500-503): `song_ids` and
`playlist_description` (the current search-box value), nothing else. -/
def buildExportParams (ids : List String) (description : String) :
    List (String × String) :=
  [("song_ids", getSongIdsAsString ids), ("playlist_description", description)]

/-- Export button click handler (`frontend/src/scripts/index.js` lines
489-529): when the joined id string is shorter than 5 characters the
handler alerts and returns without issuing any network request (`none`);
otherwise it issues one POST to export-playlist with the built
parameters. -/
def exportClick (ids : List String) (description : String) :
    Option (List (String × String)) :=
  if (getSongIdsAsString ids).length < 5 then none
  else some (buildExportParams ids description)

inductive ExportError
  | EmptySelection
  | AuthExpired
  | RateLimited
  | UpstreamUnavailable
  deriving Repr, DecidableEq

/-- Modelled from the spec: the URL of the playlist created on the provider
(backend PlaylistExporter source not under `src/`). -/
def playlistUrlFor (userKey playlistName : String) : String :=
  "playlist:" ++ userKey ++ ":" ++ playlistName

/-- Modelled from the spec: backend PlaylistExporter.export (source not
under `src/`).  The result is paired with the number of provider calls
performed: an empty selection fails with EmptySelection before any provider
call; otherwise one create-playlist call plus one add-tracks call per batch
of at most 100 ids. -/
def exportPlaylist (userKey : String) (trackIds : List String)
    (playlistName description : String) : Except ExportError String × Nat :=
  if trackIds.isEmpty then (Except.error ExportError.EmptySelection, 0)
  else (Except.ok (playlistUrlFor userKey playlistName),
    1 + (trackIds.length + 99) / 100)

/-- C3: exporting with an empty track-id set always fails with
EmptySelection and performs zero provider calls, and on the client side
clicking export with an empty export set issues no network request. -/
theorem export_empty_selection (userKey playlistName description
    clientDescription : String) :
    exportPlaylist userKey [] playlistName description =
      (Except.error ExportError.EmptySelection, 0) ∧
    exportClick [] clientDescription = none :=
  ⟨rfl, rfl⟩

/-- Counterexample to C4 at a concrete selection: the export request built
for the ids a1b2c and d4e5f carries exactly the parameters `song_ids` and
`playlist_description`; no `playlist_name` parameter is sent. -/
theorem export_params_no_playlist_name :
    exportClick ["a1b2c", "d4e5f"] "happy songs" =
      some [("song_ids", "a1b2c d4e5f"), ("playlist_description", "happy songs")] ∧
    (buildExportParams ["a1b2c", "d4e5f"] "happy songs").map Prod.fst =
      ["song_ids", "playlist_description"] ∧
    "playlist_name" ∉
      (buildExportParams ["a1b2c", "d4e5f"] "happy songs").map Prod.fst := by
  decide

/-- C4 (amended): every export-playlist request carries a `song_ids`
parameter equal to the selected ids joined by single spaces in the order
they were added to the export set (`augmentKeys` appends a fresh id at the
end and `deaugmentKeys` preserves the order of the remaining ids), together
with a `playlist_description` parameter holding the search-box value, and
no `playlist_name` parameter. -/
theorem export_params_amended (ids : List String) (newId description : String)
    (hlen : 5 ≤ (getSongIdsAsString ids).length) (hnew : newId ∉ ids) :
    exportClick ids description = some (buildExportParams ids description) ∧
    (buildExportParams ids description).map Prod.fst =
      ["song_ids", "playlist_description"] ∧
    List.lookup "song_ids" (buildExportParams ids description) =
      some (getSongIdsAsString ids) ∧
    List.lookup "playlist_description" (buildExportParams ids description) =
      some description ∧
    List.lookup "playlist_name" (buildExportParams ids description) = none ∧
    augmentKeys ids newId = ids ++ [newId] ∧
    deaugmentKeys (ids ++ [newId]) newId = ids := by
  refine ⟨?_, rfl, rfl, rfl, rfl, ?_, ?_⟩
  · unfold exportClick
    rw [if_neg (by omega)]
  · unfold augmentKeys
    rw [if_neg hnew]
  · unfold deaugmentKeys
    rw [List.filter_append]
    have h1 : ids.filter (fun j => j != newId) = ids := by
      apply List.filter_eq_self.mpr
      intro a ha
      rw [bne_iff_ne]
      intro he
      exact hnew (he ▸ ha)
    have h2 : [newId].filter (fun j => j != newId) = [] := by
      simp
    rw [h1, h2, List.append_nil]

/-- Witness for C4 (amended) at a concrete selection of one 5-character id. -/
theorem export_params_amended_witness :
    5 ≤ (getSongIdsAsString ["a1b2c"]).length ∧ "zzzzz" ∉ ["a1b2c"] ∧
    (exportClick ["a1b2c"] "calm" = some (buildExportParams ["a1b2c"] "calm") ∧
      (buildExportParams ["a1b2c"] "calm").map Prod.fst =
        ["song_ids", "playlist_description"] ∧
      List.lookup "song_ids" (buildExportParams ["a1b2c"] "calm") =
        some (getSongIdsAsString ["a1b2c"]) ∧
      List.lookup "playlist_description" (buildExportParams ["a1b2c"] "calm") =
        some "calm" ∧
      List.lookup "playlist_name" (buildExportParams ["a1b2c"] "calm") = none ∧
      augmentKeys ["a1b2c"] "zzzzz" = ["a1b2c"] ++ ["zzzzz"] ∧
      deaugmentKeys (["a1b2c"] ++ ["zzzzz"]) "zzzzz" = ["a1b2c"]) :=
  ⟨by decide, by decide,
    export_params_amended ["a1b2c"] "zzzzz" "calm" (by decide) (by decide)⟩

inductive GenreError
  | UpstreamUnavailable
  | MalformedResponse
  deriving Repr, DecidableEq

/-- Modelled from the spec: outcome of the single language-model call made
by GenreDeriver (backend source not under `src/`): either a transport
error, or a response carrying an HTTP status together with its JSON body,
modelled as an association list from keys to lists of strings. -/
inductive LMResult
  | transportError
  | response (status : Nat) (body : List (String × List String))
  deriving Repr, DecidableEq

def isSuccessStatus (status : Nat) : Bool := 200 ≤ status && status < 300

/-- Modelled from the spec and the secrets template (the system prompt must
make the model return a list of 5 strings via JSON under a genres key):
parsing extracts the string list stored under the fixed key. -/
def parseGenres : LMResult → Option (List String)
  | .transportError => none
  | .response _ body => List.lookup "genres" body

def lmStatusOk : LMResult → Bool
  | .transportError => false
  | .response status _ => isSuccessStatus status

/-- Modelled from the spec: GenreDeriver.deriveGenres (backend source not
under `src/`): UpstreamUnavailable on transport error or non-success
status, MalformedResponse when the genres key is missing or the list does
not hold exactly 5 entries, the parsed list otherwise. -/
def deriveGenres (r : LMResult) : Except GenreError (List String) :=
  match r with
  | .transportError => Except.error GenreError.UpstreamUnavailable
  | .response status body =>
    if isSuccessStatus status then
      match List.lookup "genres" body with
      | none => Except.error GenreError.MalformedResponse
      | some gs =>
        if gs.length = 5 then Except.ok gs
        else Except.error GenreError.MalformedResponse
    else Except.error GenreError.UpstreamUnavailable

/-- C5: deriveGenres fails with UpstreamUnavailable exactly on transport
error or non-success status; it fails with MalformedResponse exactly when
the status was a success but the fixed key is missing or the parsed count
is not 5; and it succeeds exactly when it returns the parsed list of
exactly five genre strings. -/
theorem deriveGenres_taxonomy (r : LMResult) :
    (deriveGenres r = Except.error GenreError.UpstreamUnavailable ↔
      (r = LMResult.transportError ∨ lmStatusOk r = false)) ∧
    (deriveGenres r = Except.error GenreError.MalformedResponse ↔
      (lmStatusOk r = true ∧
        (parseGenres r = none ∨ ∃ gs, parseGenres r = some gs ∧ gs.length ≠ 5))) ∧
    ((deriveGenres r).isOk = true ↔
      ∃ gs, deriveGenres r = Except.ok gs ∧ parseGenres r = some gs ∧
        gs.length = 5) := by
  cases r with
  | transportError =>
    simp [deriveGenres, lmStatusOk, parseGenres, Except.isOk, Except.toBool]
  | response status body =>
    by_cases hs : isSuccessStatus status = true
    · cases hlk : List.lookup "genres" body with
      | none =>
        simp [deriveGenres, lmStatusOk, parseGenres, hs, hlk, Except.isOk, Except.toBool]
      | some gs =>
        by_cases h5 : gs.length = 5
        · simp [deriveGenres, lmStatusOk, parseGenres, hs, hlk, h5, Except.isOk, Except.toBool]
        · simp [deriveGenres, lmStatusOk, parseGenres, hs, hlk, h5, Except.isOk, Except.toBool]
    · simp [deriveGenres, lmStatusOk, parseGenres, hs, Except.isOk, Except.toBool]

/-- Row of the `user_auth` table, `src/database.pgsql` lines 14-24:
`email_address` is the primary key and `spotify_token` is a single nullable
text column holding the user's OAuth token blob. -/
structure UserAuthRow where
  email : String
  hashedPassword : String
  displayName : String
  spotifyToken : Option String
  authenticated : Bool
  deriving Repr, DecidableEq

/-- Primary-key constraint of `user_auth`: the email addresses of the rows
are pairwise distinct. -/
def PKUnique (tbl : List UserAuthRow) : Prop :=
  (tbl.map UserAuthRow.email).Nodup

/-- Rows of the table whose `email_address` equals `e`. -/
def rowsFor (tbl : List UserAuthRow) (e : String) : List UserAuthRow :=
  tbl.filter (fun r => r.email == e)

/-- Stored OAuth tokens belonging to the user keyed by `e`. -/
def tokensFor (tbl : List UserAuthRow) (e : String) : List String :=
  (rowsFor tbl e).filterMap UserAuthRow.spotifyToken

/-- Modelled from the spec: TokenManager persists a refreshed token by
replacing the whole `spotify_token` column of the user's row
(`UPDATE user_auth SET spotify_token = ... WHERE email_address = ...`);
the backend source is not under `src/`. -/
def setSpotifyToken (tbl : List UserAuthRow) (e : String) (tok : Option String) :
    List UserAuthRow :=
  tbl.map (fun r => if r.email == e then { r with spotifyToken := tok } else r)

theorem rowsFor_eq_nil_of_not_mem (tbl : List UserAuthRow) (e : String)
    (h : e ∉ tbl.map UserAuthRow.email) : rowsFor tbl e = [] := by
  induction tbl with
  | nil => rfl
  | cons r tbl ih =>
    simp only [List.map_cons, List.mem_cons, not_or] at h
    have hre : (r.email == e) = false := by
      rw [beq_eq_false_iff_ne]
      intro hr
      exact h.1 hr.symm
    simp only [rowsFor, List.filter_cons, hre]
    exact ih h.2

theorem rowsFor_length_le_one (tbl : List UserAuthRow) (e : String)
    (h : PKUnique tbl) : (rowsFor tbl e).length ≤ 1 := by
  induction tbl with
  | nil => simp [rowsFor]
  | cons r tbl ih =>
    simp only [PKUnique, List.map_cons, List.nodup_cons] at h
    by_cases hre : (r.email == e) = true
    · have hnil : rowsFor tbl e = [] := by
        apply rowsFor_eq_nil_of_not_mem
        rw [beq_iff_eq] at hre
        rw [← hre]
        exact h.1
      simp only [rowsFor, List.filter_cons, hre] at hnil ⊢
      rw [hnil]
      simp
    · have hre2 : (r.email == e) = false := by
        rw [Bool.eq_false_iff]
        exact hre
      simp only [rowsFor, List.filter_cons, hre2]
      exact ih h.2

theorem setSpotifyToken_email (e : String) (tok : Option String) (r : UserAuthRow) :
    ((if r.email == e then { r with spotifyToken := tok } else r) :
      UserAuthRow).email = r.email := by
  by_cases hre : (r.email == e) = true
  · rw [if_pos hre]
  · rw [if_neg hre]

theorem setSpotifyToken_rowsFor_self (tbl : List UserAuthRow) (e : String)
    (tok : Option String) :
    rowsFor (setSpotifyToken tbl e tok) e =
      (rowsFor tbl e).map (fun r => { r with spotifyToken := tok }) := by
  unfold rowsFor setSpotifyToken
  rw [List.filter_map]
  have hp : ((fun r : UserAuthRow => r.email == e) ∘
      (fun r : UserAuthRow => if r.email == e then { r with spotifyToken := tok } else r)) =
      (fun r : UserAuthRow => r.email == e) := by
    funext r
    simp only [Function.comp_apply]
    rw [setSpotifyToken_email]
  rw [hp]
  apply List.map_congr_left
  intro r hr
  exact if_pos (List.mem_filter.mp hr).2

theorem setSpotifyToken_rowsFor_other (tbl : List UserAuthRow) (e e2 : String)
    (tok : Option String) (he2 : e2 ≠ e) :
    rowsFor (setSpotifyToken tbl e tok) e2 = rowsFor tbl e2 := by
  unfold rowsFor setSpotifyToken
  rw [List.filter_map]
  have hp : ((fun r : UserAuthRow => r.email == e2) ∘
      (fun r : UserAuthRow => if r.email == e then { r with spotifyToken := tok } else r)) =
      (fun r : UserAuthRow => r.email == e2) := by
    funext r
    simp only [Function.comp_apply]
    rw [setSpotifyToken_email]
  rw [hp]
  have hid : ∀ r ∈ tbl.filter (fun r => r.email == e2),
      (if r.email == e then ({ r with spotifyToken := tok } : UserAuthRow) else r) = r := by
    intro r hr
    apply if_neg
    have h2 : (r.email == e2) = true := (List.mem_filter.mp hr).2
    rw [beq_iff_eq] at h2 ⊢
    rw [h2]
    exact he2
  rw [List.map_congr_left hid]
  simp

theorem setSpotifyToken_preserves_PKUnique (tbl : List UserAuthRow) (e : String)
    (tok : Option String) (h : PKUnique tbl) :
    PKUnique (setSpotifyToken tbl e tok) := by
  have hmap : (setSpotifyToken tbl e tok).map UserAuthRow.email =
      tbl.map UserAuthRow.email := by
    unfold setSpotifyToken
    rw [List.map_map]
    apply List.map_congr_left
    intro r _
    simp only [Function.comp_apply]
    exact setSpotifyToken_email e tok r
  unfold PKUnique
  rw [hmap]
  exact h

/-- C6: under the primary-key constraint, a user has at most one row and
hence at most one stored OAuth token; a token write replaces the single
nullable `spotify_token` column of that row wholesale, leaving every other
column of the row and every other user's rows unchanged, and it preserves
the primary-key constraint. -/
theorem user_token_unique (tbl : List UserAuthRow) (e e2 : String)
    (tok : Option String) (h : PKUnique tbl) (he2 : e2 ≠ e) :
    (rowsFor tbl e).length ≤ 1 ∧
    (tokensFor tbl e).length ≤ 1 ∧
    PKUnique (setSpotifyToken tbl e tok) ∧
    rowsFor (setSpotifyToken tbl e tok) e =
      (rowsFor tbl e).map (fun r => { r with spotifyToken := tok }) ∧
    rowsFor (setSpotifyToken tbl e tok) e2 = rowsFor tbl e2 := by
  refine ⟨rowsFor_length_le_one tbl e h, ?_,
    setSpotifyToken_preserves_PKUnique tbl e tok h,
    setSpotifyToken_rowsFor_self tbl e tok,
    setSpotifyToken_rowsFor_other tbl e e2 tok he2⟩
  calc (tokensFor tbl e).length
      ≤ (rowsFor tbl e).length := List.length_filterMap_le _ _
    _ ≤ 1 := rowsFor_length_le_one tbl e h

instance (tbl : List UserAuthRow) : Decidable (PKUnique tbl) :=
  inferInstanceAs (Decidable ((tbl.map UserAuthRow.email).Nodup))

def rowAlice : UserAuthRow :=
  { email := "alice", hashedPassword := "h1", displayName := "Alice",
    spotifyToken := some "tokA", authenticated := true }

def rowBob : UserAuthRow :=
  { email := "bob", hashedPassword := "h2", displayName := "Bob",
    spotifyToken := none, authenticated := false }

/-- Witness for C6 on a concrete two-row table. -/
theorem user_token_unique_witness :
    PKUnique [rowAlice, rowBob] ∧ "bob" ≠ "alice" ∧
    ((rowsFor [rowAlice, rowBob] "alice").length ≤ 1 ∧
      (tokensFor [rowAlice, rowBob] "alice").length ≤ 1 ∧
      PKUnique (setSpotifyToken [rowAlice, rowBob] "alice" (some "tokNew")) ∧
      rowsFor (setSpotifyToken [rowAlice, rowBob] "alice" (some "tokNew")) "alice" =
        (rowsFor [rowAlice, rowBob] "alice").map
          (fun r => { r with spotifyToken := some "tokNew" }) ∧
      rowsFor (setSpotifyToken [rowAlice, rowBob] "alice" (some "tokNew")) "bob" =
        rowsFor [rowAlice, rowBob] "bob") :=
  ⟨by decide, by decide,
    user_token_unique [rowAlice, rowBob] "alice" "bob" (some "tokNew")
      (by decide) (by decide)⟩

/-- Modelled from the spec: InteractionStore.like, an idempotent set-insert
of the track id into the user's liked set (backend source not under
`src/`; the client mirror is `handleSongInteraction`, which stores under
the song id). -/
def like (liked : Finset String) (trackId : String) : Finset String :=
  insert trackId liked

/-- Modelled from the spec: InteractionStore.unlike, an idempotent
set-remove of the track id from the user's liked set (backend source not
under `src/`; the client mirror deletes the song id key). -/
def unlike (liked : Finset String) (trackId : String) : Finset String :=
  liked.erase trackId

/-- Counterexample to C7: when the track is already liked, like followed by
unlike does not restore the pre-like liked set — it removes the track. -/
theorem like_unlike_no_restore_counterexample :
    unlike (like {"a1"} "a1") "a1" ≠ ({"a1"} : Finset String) := by decide

/-- C7 (amended): for every prior liked set and track, like and unlike are
idempotent and total; like followed by unlike always yields the pre-like
set with the track removed, and that equals the pre-like liked set exactly
when the track was not already liked. -/
theorem like_unlike_idempotent (S : Finset String) (t : String) :
    like (like S t) t = like S t ∧
    unlike (unlike S t) t = unlike S t ∧
    unlike (like S t) t = S.erase t ∧
    (unlike (like S t) t = S ↔ t ∉ S) := by
  have herase : unlike (like S t) t = S.erase t := by
    unfold like unlike
    rw [Finset.erase_insert_eq_erase]
  refine ⟨Finset.insert_idem t S, Finset.erase_idem, herase, ?_⟩
  rw [herase]
  exact Finset.erase_eq_self

/-- Modelled from the spec: what one caller of getValidToken receives —
the token produced by the refresh exchange (identified by version) or the
shared failure (reported as AuthExpired). -/
inductive TMOutcome
  | token (version : Nat)
  | failure
  deriving Repr, DecidableEq

/-- Modelled from the spec: phase of one concurrent getValidToken caller. -/
inductive TMPhase
  | waiting
  | locked
  | finished (r : TMOutcome)
  deriving Repr, DecidableEq

/-- Modelled from the spec: shared TokenManager state for one user whose
stored token is expiring, with `n` concurrent getValidToken callers: the
per-user mutual-exclusion scope, whether a refresh exchange has completed
(after which the stored token is no longer expiring), the stored outcome of
that exchange, the number of refresh exchanges executed with the provider,
and each caller's phase. -/
structure TMState (n : Nat) where
  lock : Option (Fin n)
  fresh : Bool
  outcome : TMOutcome
  refreshCount : Nat
  pc : Fin n → TMPhase

/-- All callers waiting on an expiring token, no refresh performed yet. -/
def tmInit (n : Nat) : TMState n :=
  { lock := none, fresh := false, outcome := TMOutcome.failure,
    refreshCount := 0, pc := fun _ => TMPhase.waiting }

def expectedOutcome (refreshOk : Bool) : TMOutcome :=
  if refreshOk then TMOutcome.token 1 else TMOutcome.failure

/-- Modelled from the spec (single-flight refresh, sections 4.5, 5 and 9):
interleaving semantics of `n` concurrent getValidToken callers.  A waiting
caller may acquire the free per-user lock; the lock holder either observes
an already-fresh token and finishes with the stored outcome, or executes
the one refresh exchange (whose success is fixed by `refreshOk`), marks the
token fresh, stores the outcome and finishes with it; the lock is released
on finish. -/
inductive TMStep (n : Nat) (refreshOk : Bool) : TMState n → TMState n → Prop
  | acquire (s : TMState n) (i : Fin n) :
      s.pc i = TMPhase.waiting → s.lock = none →
      TMStep n refreshOk s
        { s with lock := some i, pc := Function.update s.pc i TMPhase.locked }
  | hit (s : TMState n) (i : Fin n) :
      s.pc i = TMPhase.locked → s.lock = some i → s.fresh = true →
      TMStep n refreshOk s
        { s with
          lock := none,
          pc := Function.update s.pc i (TMPhase.finished s.outcome) }
  | refresh (s : TMState n) (i : Fin n) :
      s.pc i = TMPhase.locked → s.lock = some i → s.fresh = false →
      TMStep n refreshOk s
        { s with
          lock := none,
          fresh := true,
          outcome := expectedOutcome refreshOk,
          refreshCount := s.refreshCount + 1,
          pc := Function.update s.pc i (TMPhase.finished (expectedOutcome refreshOk)) }

/-- States reachable from `tmInit` by any interleaving of the callers. -/
def TMReachable (n : Nat) (refreshOk : Bool) (s : TMState n) : Prop :=
  Relation.ReflTransGen (TMStep n refreshOk) (tmInit n) s

/-- Holds of a caller phase unless the caller finished with a result other
than the outcome of the single refresh exchange. -/
def phaseOutcomeOk (refreshOk : Bool) : TMPhase → Bool
  | TMPhase.finished r => r == expectedOutcome refreshOk
  | _ => true

/-- Inductive invariant of the single-flight refresh system. -/
def TMInv (n : Nat) (refreshOk : Bool) (s : TMState n) : Prop :=
  (s.fresh = false → s.refreshCount = 0) ∧
  (s.fresh = true → s.refreshCount = 1 ∧ s.outcome = expectedOutcome refreshOk) ∧
  ∀ i : Fin n, phaseOutcomeOk refreshOk (s.pc i) = true

theorem tmInv_init (n : Nat) (refreshOk : Bool) : TMInv n refreshOk (tmInit n) := by
  refine ⟨fun _ => rfl, fun h => by simp [tmInit] at h, fun i => rfl⟩

theorem tmInv_step (n : Nat) (refreshOk : Bool) (s s2 : TMState n)
    (hstep : TMStep n refreshOk s s2) (hinv : TMInv n refreshOk s) :
    TMInv n refreshOk s2 := by
  obtain ⟨h0, h1, hpc⟩ := hinv
  cases hstep with
  | acquire i hw hl =>
    refine ⟨h0, h1, fun j => ?_⟩
    by_cases hij : j = i
    · subst hij
      simp only [Function.update_same]
      rfl
    · simp only [Function.update_noteq hij]
      exact hpc j
  | hit i hlk hl hf =>
    refine ⟨h0, h1, fun j => ?_⟩
    by_cases hij : j = i
    · subst hij
      simp only [Function.update_same]
      show (s.outcome == expectedOutcome refreshOk) = true
      rw [(h1 hf).2]
      exact beq_self_eq_true _
    · simp only [Function.update_noteq hij]
      exact hpc j
  | refresh i hlk hl hf =>
    refine ⟨fun hc => by simp at hc, fun _ => ⟨by rw [h0 hf], rfl⟩, fun j => ?_⟩
    by_cases hij : j = i
    · subst hij
      simp only [Function.update_same]
      show (expectedOutcome refreshOk == expectedOutcome refreshOk) = true
      exact beq_self_eq_true _
    · simp only [Function.update_noteq hij]
      exact hpc j

theorem tmInv_reachable (n : Nat) (refreshOk : Bool) (s : TMState n)
    (h : TMReachable n refreshOk s) : TMInv n refreshOk s := by
  induction h with
  | refl => exact tmInv_init n refreshOk
  | tail hreach hstep ih => exact tmInv_step n refreshOk _ _ hstep ih

/-- C2: in every interleaving of `n` concurrent getValidToken callers for
one user whose stored token is expiring, at most one refresh exchange is
executed with the provider, and every caller that finished received the
outcome of that single refresh exchange — the refreshed token when the
exchange succeeds, the shared failure otherwise. -/
theorem tokenManager_single_flight (n : Nat) (refreshOk : Bool) (s : TMState n)
    (hreach : TMReachable n refreshOk s) :
    s.refreshCount ≤ 1 ∧
    ∀ i : Fin n, phaseOutcomeOk refreshOk (s.pc i) = true := by
  obtain ⟨h0, h1, hpc⟩ := tmInv_reachable n refreshOk s hreach
  refine ⟨?_, hpc⟩
  cases hf : s.fresh with
  | false => rw [h0 hf]; omega
  | true => rw [(h1 hf).1]

/-- Witness for C2 at the concrete initial state of two callers. -/
theorem tokenManager_single_flight_witness :
    TMReachable 2 true (tmInit 2) ∧
    ((tmInit 2).refreshCount ≤ 1 ∧
      ∀ i : Fin 2, phaseOutcomeOk true ((tmInit 2).pc i) = true) :=
  ⟨Relation.ReflTransGen.refl,
    tokenManager_single_flight 2 true (tmInit 2) Relation.ReflTransGen.refl⟩

/-- Sanity check that the model executes: a complete interleaving of two
callers — the first acquires the lock and refreshes, the second then
acquires the lock and hits the fresh token — reaches a state in which
exactly one refresh exchange happened and both callers hold the refreshed
token. -/
theorem tm_run_example :
    ∃ s : TMState 2, TMReachable 2 true s ∧ s.refreshCount = 1 ∧
      s.pc 0 = TMPhase.finished (TMOutcome.token 1) ∧
      s.pc 1 = TMPhase.finished (TMOutcome.token 1) := by
  refine ⟨_, Relation.ReflTransGen.tail (Relation.ReflTransGen.tail
    (Relation.ReflTransGen.tail (Relation.ReflTransGen.tail Relation.ReflTransGen.refl
      (TMStep.acquire (tmInit 2) 0 rfl rfl))
      (TMStep.refresh _ 0 (by decide) rfl rfl))
    (TMStep.acquire _ 1 (by decide) rfl))
    (TMStep.hit _ 1 (by decide) rfl rfl), by decide, by decide, by decide⟩

end SentiSounds
